import Mathlib

/-!
Shallow embedding of `src/flashfloppy_to_hfe/main.c` (keirf/Centurion_Floppy):
the decode-strategy dispatch, the bitcell-buffer setup, the post-decode
overflow check, and the HFE container serializer (rounding, track-descriptor
length field, per-word bit packing, block-interleave offsets).

Machine integers are modelled as `Nat` with explicit `% 2 ^ w` where the C
arithmetic can wrap; fallible paths return `Except`.
-/

/-- `#define BC_BUF_SIZE_BYTES (2 * 1024 * 1024)` (main.c line 8). -/
def BC_BUF_SIZE_BYTES : Nat := 2 * 1024 * 1024

/-- The post-decode overflow check, main.c line 165:
`if (bc_prod / 4 >= BC_BUF_SIZE_BYTES)` aborts the run.  `bc_prod` is a
`uint32_t`; `/` is C unsigned (truncating) division, identical to `Nat`
division below 2^32. -/
def overflowCheckTriggers (bc_prod : Nat) : Bool :=
  decide (BC_BUF_SIZE_BYTES ≤ bc_prod / 4)

/-- main.c line 172: `size_t bc_bytes = (bc_prod + 7) / 8;` — the addition is
performed in `uint32_t`, so it wraps modulo 2^32 before the division. -/
def bc_bytes (bc_prod : Nat) : Nat := ((bc_prod + 7) % 2 ^ 32) / 8

/-- main.c line 173: `size_t bc_words = bc_bytes / 4;` (truncating). -/
def bc_words (bc_prod : Nat) : Nat := bc_bytes bc_prod / 4

/-- main.c line 208: `size_t track_data_length_bytes = bc_bytes * 2;`. -/
def track_data_length_bytes (bc_prod : Nat) : Nat := bc_bytes bc_prod * 2

/-- Third byte of the track list entry, main.c line 212:
`(track_data_length_bytes & 0xFF)`. -/
def trackListLenLo (bc_prod : Nat) : Nat := track_data_length_bytes bc_prod &&& 0xFF

/-- Fourth byte of the track list entry, main.c line 213:
`(track_data_length_bytes >> 8) & 0xFF`. -/
def trackListLenHi (bc_prod : Nat) : Nat :=
  (track_data_length_bytes bc_prod >>> 8) &&& 0xFF

/-- The 16-bit little-endian value stored in the track-descriptor length
field (bytes at offsets 0x202/0x203 of the container). -/
def declaredTrackLen (bc_prod : Nat) : Nat :=
  trackListLenLo bc_prod + 256 * trackListLenHi bc_prod

/-- The data loop `for (int ii = 0; ii < bc_words; ++ii)` (main.c line 219)
writes one 4-byte group per word index in this list. -/
def wordIndicesWritten (bc_prod : Nat) : List Nat := List.range (bc_words bc_prod)

/-- main.c line 232: `long byte_number = ii * 4;`. -/
def byte_number (ii : Nat) : Nat := ii * 4

/-- main.c line 233: `long block_number = byte_number / 256;`. -/
def block_number (ii : Nat) : Nat := byte_number ii / 256

/-- main.c line 234:
`long offset = 0x400 + (block_number * 512) + (byte_number % 256);`. -/
def hfe_data_offset (ii : Nat) : Nat :=
  0x400 + block_number ii * 512 + byte_number ii % 256

/-! Sample-file loading (main.c lines 86-123).  File I/O itself is out of
scope; we model the arithmetic on the file's byte size for a file that opens
and reads successfully. -/

/-- main.c line 101: `size_t ff_sample_count = ff_sample_size / sizeof(uint16_t);`
(truncating division by 2). -/
def ff_sample_count (ff_sample_size : Nat) : Nat := ff_sample_size / 2

/-- main.c line 111: `fread(ff_samples, sizeof(uint16_t), ff_sample_count, fd)`
on a readable file of `ff_sample_size` bytes returns the number of complete
2-byte items delivered: the minimum of the request and the complete items
present in the file. -/
def fread_samples_result (ff_sample_size : Nat) : Nat :=
  min (ff_sample_count ff_sample_size) (ff_sample_size / 2)

/-- The sample-loading outcome (main.c lines 101-123): error on a short read
(`res != ff_sample_count`), otherwise the sample count handed to decoding. -/
def loadSamples (ff_sample_size : Nat) : Except String Nat :=
  let res := fread_samples_result ff_sample_size
  if res ≠ ff_sample_count ff_sample_size then Except.error "short read"
  else Except.ok (ff_sample_count ff_sample_size)

/-! Strategy dispatch (main.c lines 27-162). -/

/-- The resolved decode strategy: either the generic NCO variant with its two
parsed divisors (main.c line 140) or a fixed registry entry (line 160). -/
inductive Strategy
  | nco (integral_div error_div : Int)
  | fixed (name : String)
deriving DecidableEq

/-- The names registered in the `ALGS` table (main.c lines 33-50), in table
order, without the NULL sentinel. -/
def ALGS : List String :=
  ["ff_v341", "ff_master", "ff_master_greaseweazle_default_pll",
   "ff_master_greaseweazle_fallback_pll", "fdc9216", "nco_715k", "nco_358k",
   "nco_178k", "nco_1440k_0p2", "nco_1440k_0p25", "nco_2160k_0p1",
   "nco_2160k_0p2", "nco_2160k_0p25", "nco_2160k_0p5", "nco_2160k_1p0"]

/-- Digit-consuming phase of C `strtol` base 10: consume leading decimal
digits, returning the accumulated value and the unconsumed rest. -/
def strtolDigits : List Char → Nat → Nat × List Char
  | c :: cs, acc =>
      if c.isDigit then strtolDigits cs (acc * 10 + (c.toNat - 48)) else (acc, c :: cs)
  | [], acc => (acc, [])

/-- Model of C `strtol(p, &p, 10)`: skip whitespace, accept an optional sign,
consume decimal digits; result value and the position after the last digit. -/
def strtol (s : List Char) : Int × List Char :=
  let s1 := s.dropWhile Char.isWhitespace
  match s1 with
  | '-' :: rest =>
      let (v, r) := strtolDigits rest 0
      (-(v : Int), r)
  | '+' :: rest =>
      let (v, r) := strtolDigits rest 0
      ((v : Int), r)
  | _ =>
      let (v, r) := strtolDigits s1 0
      ((v : Int), r)

/-- Strategy-name resolution (main.c lines 134-160): a name whose first four
characters are `nco[` takes the generic-NCO path, parsing
`integral_div = strtol(p, &p, 10)` and `error_div = strtol(p+1, &p, 10)`
with `p` starting right after the prefix; any other name is looked up by
exact `strcmp` against the `ALGS` table, and a failed lookup is the
`Unknown algorithm` fatal error (lines 153-157). -/
def resolveAlgorithm (algorithm : String) : Except String Strategy :=
  if algorithm.toList.take 4 = "nco[".toList then
    let p := algorithm.toList.drop 4
    let r1 := strtol p
    let r2 := strtol (r1.2.drop 1)
    Except.ok (Strategy.nco r1.1 r2.1)
  else
    match ALGS.find? (fun n => n = algorithm) with
    | some n => Except.ok (Strategy.fixed n)
    | none => Except.error algorithm

/-! Bitcell-buffer setup and strategy invocation (main.c lines 129-160). -/

/-- The arguments main hands to the selected strategy. -/
structure StrategyCall where
  write_bc_ticks : Nat
  bc_buf : Nat → Nat
  bc_bufmask : Nat

/-- main.c lines 129-131 followed by the call on line 140/160: the buffer is
obtained from `malloc(BC_BUF_SIZE_BYTES)` — whose contents are whatever the
allocator returns, here the parameter `mallocContents`, indexed by 32-bit
word — and main performs no write to it before invoking the strategy;
`bc_bufmask = (BC_BUF_SIZE_BYTES / 4) - 1`; `write_bc_ticks` is
`(500*72) / hfe_bit_rate_kbps` truncated to `uint16_t`. -/
def mkStrategyCall (hfe_bit_rate_kbps : Nat) (mallocContents : Nat → Nat) :
    StrategyCall :=
  { write_bc_ticks := ((500 * 72) / hfe_bit_rate_kbps) % 2 ^ 16
    bc_buf := mallocContents
    bc_bufmask := BC_BUF_SIZE_BYTES / 4 - 1 }

/-! Per-word bit packing (main.c lines 219-230).  `bits_out` is a `uint8_t[4]`
whose initial contents are irrelevant: each cell receives exactly eight
left-shift-and-or steps with truncation to 8 bits, which flush any initial
value; we model the cells as starting at 0. -/

/-- Loop state of main.c lines 221-230: the shifting word
`bits_left_to_right` and the four output bytes `bits_out[0..3]`. -/
structure PackState where
  bits_left_to_right : Nat
  out0 : Nat
  out1 : Nat
  out2 : Nat
  out3 : Nat
deriving DecidableEq

/-- One iteration of the inner loop (main.c lines 224-230) at loop counter
`jj`: `bit = bits_left_to_right & 1; byte_idx = jj / 8;
bits_out[byte_idx] = bits_out[byte_idx] << 1 | bit;` (stored through a
`uint8_t`, hence `% 256`), then `bits_left_to_right >>= 1`. -/
def packIter (jj : Nat) (s : PackState) : PackState :=
  let bit := s.bits_left_to_right &&& 1
  let s' :=
    if jj / 8 = 0 then { s with out0 := (s.out0 <<< 1 ||| bit) % 256 }
    else if jj / 8 = 1 then { s with out1 := (s.out1 <<< 1 ||| bit) % 256 }
    else if jj / 8 = 2 then { s with out2 := (s.out2 <<< 1 ||| bit) % 256 }
    else { s with out3 := (s.out3 <<< 1 ||| bit) % 256 }
  { s' with bits_left_to_right := s'.bits_left_to_right >>> 1 }

/-- `packLoop n s` runs the iterations with `jj = n-1, n-2, ..., 0`; the
source loop `for (jj = 31; jj >= 0; --jj, ...)` is `packLoop 32`. -/
def packLoop : Nat → PackState → PackState
  | 0, s => s
  | n + 1, s => packLoop n (packIter n s)

/-- The four output bytes the serializer produces from one 32-bit word `w`
(already byte-swapped by `be32toh`): main.c lines 221-230. -/
def packWord (w : Nat) : PackState :=
  packLoop 32 { bits_left_to_right := w, out0 := 0, out1 := 0, out2 := 0, out3 := 0 }

/-- The intra-byte transform the word-packing loop applies to each source
byte: for a word equal to the single byte `b`, iterations `jj = 31..24`
build `bits_out[3]` from bits 0..7 of `b`, which is the per-byte bit
reversal. -/
def byteRev (b : Nat) : Nat := (packWord b).out3

/-- `declaredTrackLen` keeps exactly the low 16 bits of
`track_data_length_bytes`. -/
theorem declaredTrackLen_eq_mod (n : Nat) :
    declaredTrackLen n = track_data_length_bytes n % 2 ^ 16 := by
  unfold declaredTrackLen trackListLenLo trackListLenHi
  have h1 : track_data_length_bytes n &&& 0xFF = track_data_length_bytes n % 2 ^ 8 := by
    have := Nat.and_pow_two_sub_one_eq_mod (track_data_length_bytes n) 8
    norm_num at this ⊢
    exact this
  have h2 : (track_data_length_bytes n >>> 8) &&& 0xFF =
      (track_data_length_bytes n / 2 ^ 8) % 2 ^ 8 := by
    rw [Nat.shiftRight_eq_div_pow]
    have := Nat.and_pow_two_sub_one_eq_mod (track_data_length_bytes n / 2 ^ 8) 8
    norm_num at this ⊢
    exact this
  rw [h1, h2]
  omega

/-- For bit counts accepted by the overflow check the `uint32_t` addition
`bc_prod + 7` cannot wrap, so `bc_bytes` is the plain ceiling division. -/
theorem bc_bytes_eq_ceil (n : Nat) (h : n + 7 < 2 ^ 32) :
    bc_bytes n = (n + 7) / 8 := by
  unfold bc_bytes
  rw [Nat.mod_eq_of_lt h]

/-- The overflow check triggers exactly at 8388608 = 4 * BC_BUF_SIZE_BYTES. -/
theorem overflowCheckTriggers_iff (n : Nat) :
    overflowCheckTriggers n = true ↔ 8388608 ≤ n := by
  unfold overflowCheckTriggers BC_BUF_SIZE_BYTES
  simp only [decide_eq_true_eq]
  omega

/-- Acceptance form of the overflow check: the run proceeds to serialization
iff the bit count is at most 8388607. -/
theorem overflowCheckTriggers_eq_false_iff (n : Nat) :
    overflowCheckTriggers n = false ↔ n ≤ 8388607 := by
  rw [← Bool.not_eq_true, overflowCheckTriggers_iff]
  omega

/-- On every accepted bit count the stored track-descriptor length field is
the doubled ceiling byte count reduced modulo 2^16. -/
theorem declaredTrackLen_accepted (n : Nat) (h : overflowCheckTriggers n = false) :
    declaredTrackLen n = 2 * ((n + 7) / 8) % 2 ^ 16 := by
  have hn : n ≤ 8388607 := (overflowCheckTriggers_eq_false_iff n).mp h
  rw [declaredTrackLen_eq_mod]
  unfold track_data_length_bytes
  rw [bc_bytes_eq_ceil n (by omega), Nat.mul_comm]

/-- Claim C1, counterexample: at bc_prod = 8388608 the check `bc_prod / 4 >=
BC_BUF_SIZE_BYTES` triggers although the byte-rounded size
ceil(8388608/8) = 1048576 is far below the 2097152-byte capacity, so the
claimed equivalence between triggering and
`ceil(bc_prod/8) ≥ BC_BUF_SIZE_BYTES` is false. -/
theorem c1_counterexample :
    ¬ ((overflowCheckTriggers 8388608 = true) ↔
        BC_BUF_SIZE_BYTES ≤ (8388608 + 7) / 8) := by
  decide

/-- Claim C1, amended: for every 32-bit bit count bc_prod, the run fails with
the buffer-overflow error iff `bc_prod / 4 ≥ BC_BUF_SIZE_BYTES`, i.e. iff
bc_prod ≥ 4 * BC_BUF_SIZE_BYTES = 8388608; it does not trigger at 8388607. -/
theorem c1_amended :
    (∀ n : Nat, n < 2 ^ 32 →
        ((overflowCheckTriggers n = true) ↔ 4 * BC_BUF_SIZE_BYTES ≤ n)) ∧
    overflowCheckTriggers 8388607 = false := by
  constructor
  · intro n _
    rw [overflowCheckTriggers_iff]
    norm_num [BC_BUF_SIZE_BYTES]
  · decide

/-- Witness for `c1_amended` at bc_prod = 8388608. -/
theorem c1_witness :
    8388608 < 2 ^ 32 ∧
      ((overflowCheckTriggers 8388608 = true) ↔ 4 * BC_BUF_SIZE_BYTES ≤ 8388608) :=
  ⟨by decide, c1_amended.1 8388608 (by decide)⟩

/-- Claim C2, code evaluated at the failing input bc_prod = 8: the code's
word count `bc_words = bc_bytes / 4` rounds down, so the serializer writes
no word at all and the 8 decoded bits are dropped, while the claimed count
ceil(ceil(8/8)/4) — and the source's own comment "Round up to next byte and
word in case last byte is partial" (main.c line 171) — require 1 word. -/
theorem c2_code_drops_partial_word :
    bc_words 8 = 0 ∧ wordIndicesWritten 8 = [] ∧ ((8 + 7) / 8 + 3) / 4 = 1 := by
  decide

/-- Claim C3, counterexample: the buffer comes from `malloc` (main.c line
129) and is handed to the strategy unwritten, so for an allocation whose
words are all 1 the buffer word at index 0 is not 0. -/
theorem c3_counterexample :
    ¬ ∀ (rate : Nat) (contents : Nat → Nat) (i : Nat),
        (mkStrategyCall rate contents).bc_buf i = 0 := by
  intro h
  have h1 := h 250 (fun _ => 1) 0
  simp [mkStrategyCall] at h1

/-- Claim C3, amended: the bitcell buffer reaches the strategy exactly as the
allocator returned it — main performs no zero-initialization (and no other
write) between `malloc` and the strategy invocation. -/
theorem c3_amended :
    ∀ (rate : Nat) (contents : Nat → Nat),
      (mkStrategyCall rate contents).bc_buf = contents :=
  fun _ _ => rfl

/-- Claim C4, counterexample: the mask passed to the strategy is
`(BC_BUF_SIZE_BYTES / 4) - 1 = 2^19 - 1` (the word capacity minus one), not
the claimed bit-capacity mask 2^24 - 1. -/
theorem c4_counterexample :
    (mkStrategyCall 250 (fun _ => 0)).bc_bufmask = 2 ^ 19 - 1 ∧
      (2 ^ 19 - 1 : Nat) ≠ 2 ^ 24 - 1 := by
  constructor
  · norm_num [mkStrategyCall, BC_BUF_SIZE_BYTES]
  · decide

/-- Claim C4, amended: the mask passed to every strategy equals
`BC_BUF_SIZE_BYTES / 4 - 1 = 2^19 - 1`, the buffer's capacity in 32-bit
words minus one, so 32-bit-word indices are reduced modulo the word
capacity 2^19. -/
theorem c4_amended :
    (∀ (rate : Nat) (contents : Nat → Nat),
        (mkStrategyCall rate contents).bc_bufmask = BC_BUF_SIZE_BYTES / 4 - 1 ∧
          (mkStrategyCall rate contents).bc_bufmask = 2 ^ 19 - 1) ∧
    (∀ i : Nat, i &&& (2 ^ 19 - 1) = i % 2 ^ 19) := by
  refine ⟨fun rate contents => ⟨rfl, ?_⟩, fun i => Nat.and_pow_two_sub_one_eq_mod i 19⟩
  norm_num [mkStrategyCall, BC_BUF_SIZE_BYTES]

/-- Claim C5, counterexample: a 3-byte input file is not rejected — the
sample count truncates to 1, `fread` delivers that one complete sample, the
short-read test passes, and the run proceeds with 1 sample. -/
theorem c5_counterexample :
    (3 : Nat) % 2 = 1 ∧ loadSamples 3 = Except.ok 1 := by
  exact ⟨rfl, rfl⟩

/-- Claim C5, amended: an input file of any byte size n loads successfully
(given readable I/O) with floor(n/2) samples; an odd trailing byte is
silently ignored, and no input-size error exists. -/
theorem c5_amended : ∀ n : Nat, loadSamples n = Except.ok (n / 2) := by
  intro n
  simp [loadSamples, fread_samples_result, ff_sample_count]

/-- Claim C6, counterexample: bc_prod = 262144 passes the overflow check,
the doubled byte-rounded count is 2 * 32768 = 65536, but the 16-bit
track-descriptor length field stores 0, not 65536. -/
theorem c6_counterexample :
    overflowCheckTriggers 262144 = false ∧
      declaredTrackLen 262144 ≠ 2 * ((262144 + 7) / 8) := by
  decide

/-- Claim C6, amended: for every run that produces a container, the
track-descriptor length field equals the doubled byte-rounded bit count
reduced modulo 2^16, `(2 * ceil(bc_prod/8)) % 65536`; in particular a
strategy returning exactly 64 bits yields a declared track length of 16. -/
theorem c6_amended :
    (∀ n : Nat, overflowCheckTriggers n = false →
        declaredTrackLen n = 2 * ((n + 7) / 8) % 2 ^ 16) ∧
    declaredTrackLen 64 = 16 := by
  exact ⟨fun n h => declaredTrackLen_accepted n h, by decide⟩

/-- Witness for `c6_amended` at bc_prod = 64. -/
theorem c6_witness :
    overflowCheckTriggers 64 = false ∧
      declaredTrackLen 64 = 2 * ((64 + 7) / 8) % 2 ^ 16 :=
  ⟨by decide, c6_amended.1 64 (by decide)⟩

/-- Claim C7: the block-interleave storage offset is the pure function
`0x400 + ((4*i)/256)*512 + ((4*i) mod 256)` of the word index, taking the
values 0x400, 0x4FC, 0x600, 0x6FC, 0x800 at i = 0, 63, 64, 127, 128. -/
theorem c7_offset_formula :
    (∀ i : Nat, hfe_data_offset i = 0x400 + 4 * i / 256 * 512 + 4 * i % 256) ∧
    hfe_data_offset 0 = 0x400 ∧ hfe_data_offset 63 = 0x4FC ∧
    hfe_data_offset 64 = 0x600 ∧ hfe_data_offset 127 = 0x6FC ∧
    hfe_data_offset 128 = 0x800 := by
  refine ⟨fun i => ?_, by decide, by decide, by decide, by decide, by decide⟩
  unfold hfe_data_offset block_number byte_number
  rw [Nat.mul_comm i 4]

set_option maxRecDepth 8192

/-- Claim C8: resolution fails (the `Unknown algorithm` error) exactly when
the name does not begin with `nco[` and matches no registered name under
exact, case-sensitive comparison; and `nco[4,8]` resolves to the generic
NCO strategy with integral divisor 4 and error divisor 8. -/
theorem c8_resolution :
    (∀ name : String,
        (∃ e, resolveAlgorithm name = Except.error e) ↔
          (name.toList.take 4 ≠ "nco[".toList ∧ name ∉ ALGS)) ∧
    resolveAlgorithm "nco[4,8]" = Except.ok (Strategy.nco 4 8) := by
  refine ⟨fun name => ?_, rfl⟩
  constructor
  · intro he'
    obtain ⟨e, he⟩ := he'
    unfold resolveAlgorithm at he
    by_cases h : name.toList.take 4 = "nco[".toList
    · rw [if_pos h] at he
      exact Except.noConfusion he
    · rw [if_neg h] at he
      refine ⟨h, fun hmem => ?_⟩
      rcases hf : ALGS.find? (fun n => n = name) with _ | v
      · have hself := List.find?_eq_none.mp hf name hmem
        simp at hself
      · rw [hf] at he
        exact Except.noConfusion he
  · intro hc
    obtain ⟨h, hnm⟩ := hc
    unfold resolveAlgorithm
    rw [if_neg h]
    rcases hf : ALGS.find? (fun n => n = name) with _ | v
    · exact ⟨name, rfl⟩
    · have hv : v = name := by simpa using List.find?_some hf
      exact absurd (hv ▸ List.mem_of_find?_eq_some hf) hnm

/-- Claim C9: the intra-byte bit reversal performed by the word-packing loop
is an involution on all 256 byte values. -/
theorem c9_byteRev_involution : ∀ b : Nat, b < 256 → byteRev (byteRev b) = b := by
  decide

/-- Witness for `c9_byteRev_involution` at b = 171. -/
theorem c9_witness : (171 : Nat) < 256 ∧ byteRev (byteRev 171) = 171 :=
  ⟨by decide, c9_byteRev_involution 171 (by decide)⟩

/-- Claim C10: the overflow check accepts exactly the bit counts up to
8388607; on every accepted bit count the track-descriptor length field
stores only the low 16 bits of the doubled rounded byte count,
`(2 * ceil(bc_prod/8)) % 2^16`, and whenever the doubled rounded byte count
reaches 2^16 the stored value differs from it (the field wraps). -/
theorem c10_declared_len_wraps :
    (∀ n : Nat, overflowCheckTriggers n = false ↔ n ≤ 8388607) ∧
    (∀ n : Nat, overflowCheckTriggers n = false →
        declaredTrackLen n = 2 * ((n + 7) / 8) % 2 ^ 16 ∧
          (2 ^ 16 ≤ 2 * ((n + 7) / 8) → declaredTrackLen n ≠ 2 * ((n + 7) / 8))) := by
  refine ⟨overflowCheckTriggers_eq_false_iff, fun n h => ?_⟩
  have hd := declaredTrackLen_accepted n h
  refine ⟨hd, fun hbig => ?_⟩
  rw [hd]
  have hlt : 2 * ((n + 7) / 8) % 2 ^ 16 < 2 ^ 16 := Nat.mod_lt _ (by norm_num)
  omega

/-- Witness for `c10_declared_len_wraps` at bc_prod = 262151, an accepted
count whose doubled rounded byte count 65538 wraps to 2 in the field. -/
theorem c10_witness :
    overflowCheckTriggers 262151 = false ∧
      (declaredTrackLen 262151 = 2 * ((262151 + 7) / 8) % 2 ^ 16 ∧
        (2 ^ 16 ≤ 2 * ((262151 + 7) / 8) → declaredTrackLen 262151 ≠ 2 * ((262151 + 7) / 8))) :=
  ⟨by decide, c10_declared_len_wraps.2 262151 (by decide)⟩
